import Mathlib

/-!
Shallow embedding of the MIME message parsing core of the `gomail` library
(`readfrom.go` and the header-projection helpers), together with proofs of
the behavioural properties stated in the specification.

Conventions of the embedding:
* Go strings are Lean `String`s; raw body bytes are `List Nat`.
* Go's standard library collaborators (`net/mail`, `mime`, `mime/multipart`,
  `net/textproto`, `encoding/base64`) are modelled by executable Lean
  functions reproducing their observable behaviour on the ASCII fragment
  the parser exercises (no RFC 2231 parameter continuations, no escaped
  characters inside quoted parameter values).
* The input stream is modelled by the observable output of the standard
  library readers: `WireInput` is the result of `mail.ReadMessage`, and a
  multipart body is the sequence of parts `multipart.Reader.NextPart`
  yields (already transparently quoted-printable-decoded, as the Go
  reader does), followed by the terminal outcome (clean `io.EOF` or an
  error).
* Stateful Go code (`messageReader` with its `err` accumulator, mutation
  of `*Message`) becomes explicit state passing: each embedded function
  returns the updated `messageReader` and `Message`.
-/

namespace Gomail

/-! ### ASCII / string utilities (models of Go `strings`/`unicode` helpers) -/

/-- Whitespace bytes trimmed by Go's `strings.TrimSpace` in the ASCII range:
space, \t, \n, \v, \f, \r. -/
def isSpaceChar (c : Char) : Bool :=
  c.toNat = 32 || c.toNat = 9 || c.toNat = 10 || c.toNat = 11 || c.toNat = 12 || c.toNat = 13

/-- Model of Go `strings.TrimSpace` (ASCII fragment). -/
def trimSpace (s : String) : String :=
  ⟨((s.data.dropWhile isSpaceChar).reverse.dropWhile isSpaceChar).reverse⟩

/-- ASCII lower-casing of one character (Go `byte`-level lowering). -/
def asciiLower (c : Char) : Char :=
  if 65 ≤ c.toNat ∧ c.toNat ≤ 90 then Char.ofNat (c.toNat + 32) else c

/-- ASCII upper-casing of one character. -/
def asciiUpper (c : Char) : Char :=
  if 97 ≤ c.toNat ∧ c.toNat ≤ 122 then Char.ofNat (c.toNat - 32) else c

/-- ASCII lower-casing of a string (model of Go `strings.ToLower` on ASCII). -/
def asciiLowerStr (s : String) : String :=
  ⟨s.data.map asciiLower⟩

/-- Model of Go `strings.HasPrefix`. -/
def hasPrefix (s pre : String) : Bool :=
  pre.data.isPrefixOf s.data

/-- Split a character list at every occurrence of `sep`. -/
def splitOnChar (sep : Char) : List Char → List (List Char)
  | [] => [[]]
  | c :: rest =>
    match splitOnChar sep rest with
    | [] => [[]]
    | g :: gs => if c = sep then [] :: g :: gs else (c :: g) :: gs

/-- Split a character list at the first `=`, if any. -/
def splitFirstEq : List Char → Option (List Char × List Char)
  | [] => none
  | c :: rest =>
    if c = '=' then some ([], rest)
    else
      match splitFirstEq rest with
      | some (k, v) => some (c :: k, v)
      | none => none

/-! ### Model of `net/textproto` header keys and header mappings -/

/-- Token characters of RFC 2045 / `net/textproto`'s `validHeaderFieldByte`
(and `mime`'s `isTokenChar`): alphanumerics and `!#$%&'*+-.^_` plus
backtick, `|` and `~`. -/
def isTokenChar (c : Char) : Bool :=
  let n := c.toNat
  (48 ≤ n && n ≤ 57) || (65 ≤ n && n ≤ 90) || (97 ≤ n && n ≤ 122) ||
  n = 33 || n = 35 || n = 36 || n = 37 || n = 38 || n = 39 || n = 42 ||
  n = 43 || n = 45 || n = 46 || n = 94 || n = 95 || n = 96 || n = 124 || n = 126

/-- Canonicalisation loop of `textproto.CanonicalMIMEHeaderKey`: upper-case
the first letter and every letter following a `-`, lower-case the rest. -/
def canonChars : Bool → List Char → List Char
  | _, [] => []
  | upper, c :: rest =>
    let c' := if upper then asciiUpper c else asciiLower c
    c' :: canonChars (c' = '-') rest

/-- Model of `textproto.CanonicalMIMEHeaderKey`: keys containing a
non-token byte are returned unchanged. -/
def canonicalMIMEHeaderKey (s : String) : String :=
  if s.data.all isTokenChar then ⟨canonChars true s.data⟩ else s

/-- A header mapping (Go `map[string][]string`): an association list with
unique keys; insertion order stands in for Go's unordered map. -/
abbrev Header := List (String × List String)

/-- Go map update `h[k] = v`: replace the binding if present (keys are
unique, so the first occurrence is the occurrence), else add it. -/
def headerSet : Header → String → List String → Header
  | [], k, v => [(k, v)]
  | kv :: rest, k, v =>
    if kv.1 = k then (k, v) :: rest else kv :: headerSet rest k v

/-- Model of `textproto.MIMEHeader.Get` (also `mail.Header.Get`): look the
canonicalised key up in the map, return the first value or `""`. -/
def headerGet (h : Header) (key : String) : String :=
  match h.lookup (canonicalMIMEHeaderKey key) with
  | some (v :: _) => v
  | _ => ""

/-- Model of `CopyOnlyHeaders` (src/unnamed/part_000 lines 27-35): a new header
holding only the listed keys, looked up verbatim (no canonicalisation). -/
def CopyOnlyHeaders (h : Header) (list : List String) : Header :=
  list.foldl
    (fun newh hn =>
      match h.lookup hn with
      | some hv => headerSet newh hn hv
      | none => newh)
    []

/-- The header-copy loop of `readMessage` (src/readfrom.go lines 36-45):
copy every field whose canonical key is neither `Content-Type` nor
`Mime-Version` into a fresh mapping, keeping the original key. -/
def copyHeadersSkipReserved (hdr : Header) : Header :=
  hdr.foldl
    (fun acc kv =>
      let hc := canonicalMIMEHeaderKey kv.1
      if hc = "Content-Type" ∨ hc = "Mime-Version" then acc
      else headerSet acc kv.1 kv.2)
    []

/-! ### Model of `mime.ParseMediaType` -/

/-- Errors produced by the embedded parser, mirroring the `error` values the
Go code creates or propagates. -/
inductive GErr where
  /-- Error of `mail.ReadMessage` (malformed envelope). -/
  | malformedEnvelope (msg : String)
  /-- Error of `mime.ParseMediaType` on the given input value. -/
  | invalidMediaType (v : String)
  /-- The error `errors.New("Invalid blank file name")`. -/
  | blankFilename
  /-- The error `fmt.Errorf("Unknown part encoding: %s", enc)`. -/
  | unknownEncoding (enc : String)
  /-- A `base64.CorruptInputError` or truncated base64 from the decoder. -/
  | base64Corrupt
  /-- Any other I/O error surfaced by the input stream or the multipart
  reader (`NextPart`). -/
  | ioError (msg : String)
deriving DecidableEq, Repr

/-- Predicate: `s` is a non-empty RFC 2045 token. -/
def isToken (s : List Char) : Bool :=
  !s.isEmpty && s.all isTokenChar

/-- Check of `mime`'s `checkMediaTypeDisposition`: a bare token (legal for
Content-Disposition values) or `token/token`. -/
def checkMediaTypeDisposition (s : List Char) : Bool :=
  match splitOnChar '/' s with
  | [t] => isToken t
  | [t, sub] => isToken t && isToken sub
  | _ => false

/-- Parse one `key=value` parameter chunk (already `;`-split and trimmed):
the key is a token, lower-cased; the value is a token or a quoted string. -/
def parseOneParam (chunk : List Char) : Option (String × String) :=
  match splitFirstEq chunk with
  | none => none
  | some (k, v) =>
    let key := (trimSpace ⟨k⟩).data
    let val := (trimSpace ⟨v⟩).data
    if isToken key then
      if isToken val then
        some (asciiLowerStr ⟨key⟩, ⟨val⟩)
      else
        match val with
        | '"' :: rest =>
          let inner := rest.dropLast
          if rest.getLast? = some '"' ∧ rest ≠ [] ∧ inner.all (fun c => c ≠ '"' ∧ c ≠ '\\') then
            some (asciiLowerStr ⟨key⟩, ⟨inner⟩)
          else none
        | _ => none
    else none

/-- Accumulate parameter chunks into an association list; a duplicate
attribute name is an error (as in Go). -/
def parseParamChunks : List (List Char) → List (String × String) →
    Option (List (String × String))
  | [], acc => some acc
  | chunk :: rest, acc =>
    match parseOneParam chunk with
    | none => none
    | some (k, v) =>
      if (acc.lookup k).isSome then none
      else parseParamChunks rest (acc ++ [(k, v)])

/-- Model of `mime.ParseMediaType` on the ASCII fragment without RFC 2231
continuations and without escapes or `;`/`=` inside quoted values: the
media type (before the first `;`) is lower-cased, trimmed and checked;
the `;`-separated parameters follow. `ParseMediaType("")` is an error
(`mime: no media type`), which is what an absent header produces. -/
def parseMediaType (v : String) : Except GErr (String × List (String × String)) :=
  match splitOnChar ';' v.data with
  | [] => .error (.invalidMediaType v)
  | base :: rest =>
    let mt := (trimSpace (asciiLowerStr ⟨base⟩)).data
    if checkMediaTypeDisposition mt then
      let chunks := (rest.map (fun c => (trimSpace ⟨c⟩).data)).filter (fun c => !c.isEmpty)
      match parseParamChunks chunks [] with
      | some ps => .ok (⟨mt⟩, ps)
      | none => .error (.invalidMediaType v)
    else .error (.invalidMediaType v)

/-! ### Model of `encoding/base64` standard decoding (via `NewDecoder`) -/

/-- Value of one base64 alphabet byte (`A-Za-z0-9+/`), if valid. -/
def b64Val (b : Nat) : Option Nat :=
  if 65 ≤ b ∧ b ≤ 90 then some (b - 65)
  else if 97 ≤ b ∧ b ≤ 122 then some (b - 71)
  else if 48 ≤ b ∧ b ≤ 57 then some (b + 4)
  else if b = 43 then some 62
  else if b = 47 then some 63
  else none

/-- Decode newline-stripped base64 text in 4-byte quanta with standard
padding; any invalid byte, interior padding or truncated quantum is an
error, as with Go's streaming decoder. -/
def b64Quanta : List Nat → Except GErr (List Nat)
  | [] => .ok []
  | a :: b :: c :: d :: rest =>
    match b64Val a, b64Val b with
    | some va, some vb =>
      if c = 61 then
        if d = 61 ∧ rest = [] then .ok [va * 4 + vb / 16]
        else .error .base64Corrupt
      else
        match b64Val c with
        | some vc =>
          if d = 61 then
            if rest = [] then .ok [va * 4 + vb / 16, (vb % 16) * 16 + vc / 4]
            else .error .base64Corrupt
          else
            match b64Val d with
            | some vd =>
              (b64Quanta rest).map
                (fun tl => (va * 4 + vb / 16) :: ((vb % 16) * 16 + vc / 4) ::
                  ((vc % 4) * 64 + vd) :: tl)
            | none => .error .base64Corrupt
        | none => .error .base64Corrupt
    | _, _ => .error .base64Corrupt
  | _ => .error .base64Corrupt

/-- Model of reading everything from
`base64.NewDecoder(base64.StdEncoding, src)`: `\r` and `\n` are ignored,
the rest must be well-formed padded standard base64. -/
def decodeBase64 (src : List Nat) : Except GErr (List Nat) :=
  b64Quanta (src.filter (fun b => !(b == 10 || b == 13)))

/-! ### Transfer-encoding labels

The `Encoding` string type and its constants live in `message.go`, outside
the parsing core; `Encoding` is a plain string here. -/

/-- The `Base64` encoding label. -/
def Base64 : String := "base64"

/-- The `QuotedPrintable` encoding label (also the message default). -/
def QuotedPrintable : String := "quoted-printable"

/-- Modelled from the spec: the `Unencoded` Encoding constant is defined in
`message.go`, which is not part of the parsing core sources; the Body
Decoder policy of the spec treats "7bit", "8bit" and "binary" alike as
unencoded pass-through labels, so the comparison `enc == Unencoded` is
modelled as membership in that set. -/
def isUnencoded (enc : String) : Bool :=
  enc = "7bit" || enc = "8bit" || enc = "binary"

/-! ### The data model (`Message`, `part`, `File` and their settings)

These types are declared in `message.go` / `writeto.go`, outside the two
core source files; they are modelled from the spec's §3 data model. -/

/-- Modelled from the spec: a `File` (attachment or embedded file) carries a
filename, the originating part's full header set, and the decoded body
content (`fileFromReader` wraps a reader holding those bytes). -/
structure File where
  name : String
  header : Header
  content : List Nat
deriving DecidableEq, Repr

/-- Modelled from the spec: a `part` (a decoded textual body) carries a
media type, an associated header subset, an optional explicit transfer
encoding, and its body content. -/
structure part where
  contentType : String
  content : List Nat
  header : Header := []
  encoding : Option String := none
deriving DecidableEq, Repr

/-- Modelled from the spec: the `Message` entity — header mapping, charset
label, default transfer-encoding label, and the three ordered
collections. -/
structure Message where
  header : Header := []
  charset : String := "UTF-8"
  encoding : String := QuotedPrintable
  parts : List part := []
  attachments : List File := []
  embedded : List File := []
deriving DecidableEq, Repr

/-- Modelled from the spec: a `PartSetting` mutates a freshly created part
(`SetPartHeaders` replaces its header set, `SetPartEncoding` records an
explicit transfer encoding). -/
inductive PartSetting where
  | setPartHeaders (h : Header)
  | setPartEncoding (e : String)
deriving DecidableEq, Repr

/-- Apply one part setting. -/
def applyPartSetting (p : part) : PartSetting → part
  | .setPartHeaders h => { p with header := h }
  | .setPartEncoding e => { p with encoding := some e }

/-- Modelled from the spec: `Message.newPart` builds a part from a media
type, a content copier and a list of settings applied in order. -/
def newPart (contentType : String) (content : List Nat)
    (settings : List PartSetting) : part :=
  settings.foldl applyPartSetting { contentType := contentType, content := content }

/-- Modelled from the spec: a `FileSetting` mutates a file before it is
filed (`SetHeader` attaches the originating part's header set). -/
inductive FileSetting where
  | setHeader (h : Header)
deriving DecidableEq, Repr

/-- Apply one file setting. -/
def applyFileSetting (f : File) : FileSetting → File
  | .setHeader h => { f with header := h }

/-- Modelled from the spec: `Message.appendFile` applies the settings to the
file and appends it at the end of the given collection. -/
def appendFile (list : List File) (f : File) (settings : List FileSetting) : List File :=
  list ++ [settings.foldl applyFileSetting f]

/-- Modelled from the spec: `fileFromReader` builds a `File` from a filename
and a reader over the decoded body bytes. -/
def fileFromReader (name : String) (content : List Nat) : File :=
  { name := name, header := [], content := content }

/-- Modelled from the spec: `Message.Reset` clears the header mapping and
the three collections so the message can be reused (charset and encoding
are reassigned by the reader immediately afterwards). -/
def Message.Reset (m : Message) : Message :=
  { m with header := [], parts := [], attachments := [], embedded := [] }

/-! ### The input-stream oracle

`mail.ReadMessage` and `mime/multipart.Reader` are Go standard library
collaborators; the embedding represents a stream by the observable output
of those readers. -/

/-- One MIME part as `multipart.Reader.NextPart` delivers it: its header
(with any `quoted-printable` Content-Transfer-Encoding already decoded
away by the Go reader, which clears that header field), and its content —
either leaf bytes, or (when read through a further `multipart.NewReader`,
as the code does when the part's own media type is `multipart/*`) a list
of sub-parts followed by the terminal outcome of that reader: `none` for
a clean `io.EOF`, `some e` for a read error. A `leaf` read as multipart
yields no parts and a clean EOF (the boundary is never found). -/
inductive MPart where
  | leaf (header : Header) (content : List Nat)
  | nested (header : Header) (subs : List MPart) (terminal : Option GErr)

/-- The header of a part. -/
def MPart.header : MPart → Header
  | .leaf h _ => h
  | .nested h _ _ => h

/-- The bytes obtained by reading the part's body directly. -/
def MPart.bytes : MPart → List Nat
  | .leaf _ bs => bs
  | .nested _ _ _ => []

/-- The top-level body stream: either raw bytes (read verbatim by the
single-part path) or, for a multipart envelope, the parts the multipart
reader yields plus its terminal outcome. -/
inductive BodyStream where
  | bytes (bs : List Nat)
  | multi (subs : List MPart) (terminal : Option GErr)

/-- Reading the top-level body verbatim (`newReaderCopier(msg.Body)`). -/
def BodyStream.leafBytes : BodyStream → List Nat
  | .bytes bs => bs
  | .multi _ _ => []

/-- Reading the top-level body through `multipart.NewReader`. -/
def BodyStream.asMulti : BodyStream → List MPart × Option GErr
  | .bytes _ => ([], none)
  | .multi subs t => (subs, t)

/-- The observable result of `mail.ReadMessage` on the input stream:
either a parse failure, or the envelope header set together with the
body stream. -/
inductive WireInput where
  | malformed (e : GErr)
  | msg (header : Header) (body : BodyStream)

/-! ### The parsing core (`readfrom.go`) -/

/-- The `messageReader` state (src/readfrom.go lines 201-207). The `n` and
`depth` fields are declared in the source but never assigned. -/
structure messageReader where
  n : Int := 0
  depth : Nat := 0
  err : Option GErr := none
deriving DecidableEq, Repr

/-- Model of `readPartBody` (src/readfrom.go lines 182-199): decode a leaf part's
body according to its transfer-encoding label. -/
def readPartBody (src : List Nat) (enc : String) : Except GErr (List Nat) :=
  if enc = Base64 then
    decodeBase64 src
  else if isUnencoded enc || enc = QuotedPrintable || enc = "" then
    .ok src
  else
    .error (.unknownEncoding enc)

mutual

/-- Model of `parsePart` (src/readfrom.go lines 105-180): classify one part —
recurse for a nested multipart, file a `part` under a
`multipart/alternative` parent, otherwise resolve a filename and file an
attachment or embedded file. -/
def parsePart (r : messageReader) (m : Message) (p : MPart)
    (parentMediaType : String) : messageReader × Message :=
  match parseMediaType (headerGet p.header "Content-Type") with
  | .error e => ({ r with err := some e }, m)
  | .ok (mediaType, params) =>
    if hasPrefix mediaType "multipart/" then
      let boundary := (params.lookup "boundary").getD ""
      match p with
      | .leaf _ _ =>
        -- reading a leaf through `multipart.NewReader` yields no parts and
        -- a clean EOF: the loop body of `parseMultipart` on no parts
        ({ r with err := none }, m)
      | .nested _ subs t => parseMultipart r m subs t mediaType boundary
    else
      match readPartBody p.bytes (headerGet p.header "Content-Transfer-Encoding") with
      | .error e => ({ r with err := some e }, m)
      | .ok body =>
        if parentMediaType = "multipart/alternative" then
          let hEnc := headerGet p.header "Content-Transfer-Encoding"
          let ps := [PartSetting.setPartHeaders p.header]
          let ps := if hEnc ≠ "" then ps ++ [PartSetting.setPartEncoding hEnc] else ps
          (r, { m with parts := m.parts ++ [newPart mediaType body ps] })
        else
          let filename0 := (params.lookup "name").getD ""
          match parseMediaType (headerGet p.header "Content-Disposition") with
          | .error e => ({ r with err := some e }, m)
          | .ok (contentDisposition, dparams) =>
            let filename :=
              match dparams.lookup "filename" with
              | some f => f
              | none => filename0
            if trimSpace filename = "" then
              ({ r with err := some .blankFilename }, m)
            else
              let fs := [FileSetting.setHeader p.header]
              if contentDisposition = "inline" then
                (r, { m with embedded := appendFile m.embedded (fileFromReader filename body) fs })
              else
                (r, { m with attachments := appendFile m.attachments (fileFromReader filename body) fs })
termination_by sizeOf p

/-- Model of `parseMultipart` (src/readfrom.go lines 83-103): loop over the parts the
multipart reader yields, parsing each; stop at the first error; a clean
`io.EOF` resets the error to `nil` and succeeds. -/
def parseMultipart (r : messageReader) (m : Message) (parts : List MPart)
    (terminal : Option GErr) (mediaType boundary : String) :
    messageReader × Message :=
  match parts with
  | [] =>
    match terminal with
    | none => ({ r with err := none }, m)
    | some e => ({ r with err := some e }, m)
  | p :: rest =>
    let res := parsePart r m p mediaType
    if res.1.err.isSome then res
    else parseMultipart res.1 res.2 rest terminal mediaType boundary
termination_by sizeOf parts

end

/-- Model of `readMessage` (src/readfrom.go lines 23-81): reset the message, read the
envelope, copy the non-reserved headers, parse the Content-Type, record
the charset, and dispatch on single-part vs multipart. -/
def readMessage (input : WireInput) (m0 : Message) : messageReader × Message :=
  let r : messageReader := {}
  let m := m0.Reset
  let m := { m with charset := "UTF-8", encoding := QuotedPrintable }
  match input with
  | .malformed e => ({ r with err := some e }, m)
  | .msg hdr body =>
    let m := { m with header := copyHeadersSkipReserved hdr }
    match parseMediaType (headerGet hdr "Content-Type") with
    | .error e => ({ r with err := some e }, m)
    | .ok (mediaType, params) =>
      let m :=
        match params.lookup "charset" with
        | some charset => { m with charset := charset }
        | none => m
      if hasPrefix mediaType "multipart/" then
        let boundary := (params.lookup "boundary").getD ""
        parseMultipart r m body.asMulti.1 body.asMulti.2 mediaType boundary
      else
        let pencoding := headerGet hdr "Content-Transfer-Encoding"
        let ps := [PartSetting.setPartHeaders
          (CopyOnlyHeaders hdr ["Content-Type", "Content-Transfer-Encoding"])]
        let ps := if pencoding ≠ "" then ps ++ [PartSetting.setPartEncoding pencoding] else ps
        (r, { m with parts := [newPart mediaType body.leafBytes ps] })

/-- Model of `Message.ReadFrom` (src/readfrom.go lines 16-21): run `readMessage` over
a fresh `messageReader` and return the populated message together with
the reader's byte count and terminal error. -/
def Message.ReadFrom (m : Message) (input : WireInput) :
    Message × Int × Option GErr :=
  let res := readMessage input m
  (res.2, res.1.n, res.1.err)

/-! ### Frame lemmas: the multipart walker only touches the three
collections, never the header mapping, charset or default encoding. -/

mutual

theorem parsePart_frame (r : messageReader) (m : Message) (p : MPart)
    (parent : String) :
    (parsePart r m p parent).2.header = m.header ∧
    (parsePart r m p parent).2.charset = m.charset ∧
    (parsePart r m p parent).2.encoding = m.encoding := by
  rw [parsePart.eq_def]
  split
  · exact ⟨rfl, rfl, rfl⟩
  · split
    · split
      · exact ⟨rfl, rfl, rfl⟩
      · exact parseMultipart_frame ..
    · dsimp only
      repeat' split
      all_goals exact ⟨rfl, rfl, rfl⟩
termination_by sizeOf p

theorem parseMultipart_frame (r : messageReader) (m : Message)
    (parts : List MPart) (terminal : Option GErr) (mediaType boundary : String) :
    (parseMultipart r m parts terminal mediaType boundary).2.header = m.header ∧
    (parseMultipart r m parts terminal mediaType boundary).2.charset = m.charset ∧
    (parseMultipart r m parts terminal mediaType boundary).2.encoding = m.encoding := by
  rw [parseMultipart.eq_def]
  split
  · split
    · exact ⟨rfl, rfl, rfl⟩
    · exact ⟨rfl, rfl, rfl⟩
  · dsimp only
    split
    · exact parsePart_frame ..
    · rename_i p rest h
      have h1 := parsePart_frame r m p mediaType
      have h2 := parseMultipart_frame (parsePart r m p mediaType).1
        (parsePart r m p mediaType).2 rest terminal mediaType boundary
      exact ⟨h2.1.trans h1.1, h2.2.1.trans h1.2.1, h2.2.2.trans h1.2.2⟩
termination_by sizeOf parts

end

/-! ### Lemmas on header mappings -/

theorem lookup_headerSet_self (h : Header) (k : String) (v : List String) :
    (headerSet h k v).lookup k = some v := by
  induction h with
  | nil => simp [headerSet, List.lookup]
  | cons kv rest ih =>
    obtain ⟨k1, v1⟩ := kv
    by_cases hk1 : k1 = k
    · subst hk1
      simp [headerSet, List.lookup]
    · have hb : (k == k1) = false := beq_eq_false_iff_ne.mpr (Ne.symm hk1)
      simp only [headerSet, if_neg hk1, List.lookup, hb]
      exact ih

theorem lookup_headerSet_ne (h : Header) (k k' : String) (v : List String)
    (hne : k' ≠ k) : (headerSet h k v).lookup k' = h.lookup k' := by
  have hbeq : (k' == k) = false := beq_eq_false_iff_ne.mpr hne
  induction h with
  | nil => simp [headerSet, List.lookup, hbeq]
  | cons kv rest ih =>
    obtain ⟨k1, v1⟩ := kv
    by_cases hk1 : k1 = k
    · subst hk1
      simp [headerSet, List.lookup, hbeq]
    · simp only [headerSet, if_neg hk1, List.lookup]
      by_cases hb' : (k' == k1) <;> simp [hb', ih]

/-- Keys whose canonical form is reserved are never present in the copied
header mapping: invariant of the fold in `copyHeadersSkipReserved`. -/
theorem copyHeadersSkipReserved_reserved_absent (hdr : Header) (k : String)
    (hres : canonicalMIMEHeaderKey k = "Content-Type" ∨
      canonicalMIMEHeaderKey k = "Mime-Version") :
    (copyHeadersSkipReserved hdr).lookup k = none := by
  unfold copyHeadersSkipReserved
  have main : ∀ (l : List (String × List String)) (acc : Header),
      acc.lookup k = none →
      (l.foldl (fun acc kv =>
        if canonicalMIMEHeaderKey kv.1 = "Content-Type" ∨
            canonicalMIMEHeaderKey kv.1 = "Mime-Version" then acc
        else headerSet acc kv.1 kv.2) acc).lookup k = none := by
    intro l
    induction l with
    | nil => intro acc hacc; simpa using hacc
    | cons kv rest ih =>
      intro acc hacc
      simp only [List.foldl_cons]
      split
      · exact ih acc hacc
      · rename_i hskip
        apply ih
        have hk : k ≠ kv.1 := by
          intro hkk
          exact hskip (hkk ▸ hres)
        rw [lookup_headerSet_ne acc kv.1 k kv.2 hk]
        exact hacc
  exact main hdr [] (by simp)

/-- A non-reserved field of the envelope header is copied with its full
value sequence (the envelope keys are unique, as in a Go map). -/
theorem copyHeadersSkipReserved_copies (hdr : Header) (k : String)
    (vs : List String) (hnodup : (hdr.map Prod.fst).Nodup)
    (hres : ¬ (canonicalMIMEHeaderKey k = "Content-Type" ∨
      canonicalMIMEHeaderKey k = "Mime-Version"))
    (hget : hdr.lookup k = some vs) :
    (copyHeadersSkipReserved hdr).lookup k = some vs := by
  unfold copyHeadersSkipReserved
  have stable : ∀ (l : List (String × List String)) (acc : Header),
      (∀ kv ∈ l, kv.1 ≠ k) →
      (l.foldl (fun acc kv =>
        if canonicalMIMEHeaderKey kv.1 = "Content-Type" ∨
            canonicalMIMEHeaderKey kv.1 = "Mime-Version" then acc
        else headerSet acc kv.1 kv.2) acc).lookup k = acc.lookup k := by
    intro l
    induction l with
    | nil => intro acc _; rfl
    | cons kv rest ih =>
      intro acc hmem
      simp only [List.foldl_cons]
      split
      · exact ih acc (fun kv' h => hmem kv' (List.mem_cons_of_mem _ h))
      · rw [ih _ (fun kv' h => hmem kv' (List.mem_cons_of_mem _ h))]
        exact lookup_headerSet_ne acc kv.1 k kv.2
          (fun hkk => hmem kv (List.mem_cons_self _ _) hkk.symm)
  have main : ∀ (l : List (String × List String)) (acc : Header),
      (l.map Prod.fst).Nodup → l.lookup k = some vs →
      (l.foldl (fun acc kv =>
        if canonicalMIMEHeaderKey kv.1 = "Content-Type" ∨
            canonicalMIMEHeaderKey kv.1 = "Mime-Version" then acc
        else headerSet acc kv.1 kv.2) acc).lookup k = some vs := by
    intro l
    induction l with
    | nil => intro acc _ hget; simp [List.lookup] at hget
    | cons kv rest ih =>
      intro acc hnd hget
      simp only [List.map_cons, List.nodup_cons] at hnd
      by_cases hk : (k == kv.1)
      · have hk' : k = kv.1 := by simpa using hk
        simp only [List.lookup, hk, Option.some.injEq] at hget
        simp only [List.foldl_cons]
        have habs : ∀ kv' ∈ rest, kv'.1 ≠ k := by
          intro kv' hmem hkk
          exact hnd.1 (hk' ▸ hkk ▸ List.mem_map_of_mem Prod.fst hmem)
        rw [stable rest _ habs]
        split
        · rename_i hskip
          exact absurd hskip (hk' ▸ hres)
        · rw [← hk', hget]
          exact lookup_headerSet_self acc k vs
      · simp only [List.lookup, hk] at hget
        simp only [List.foldl_cons]
        exact ih _ hnd.2 hget
  exact main hdr [] hnodup hget

/-! ### The byte counter is never advanced -/

mutual

theorem parsePart_n (r : messageReader) (m : Message) (p : MPart)
    (parent : String) : (parsePart r m p parent).1.n = r.n := by
  rw [parsePart.eq_def]
  split
  · rfl
  · split
    · split
      · rfl
      · exact parseMultipart_n ..
    · dsimp only
      repeat' split
      all_goals rfl
termination_by sizeOf p

theorem parseMultipart_n (r : messageReader) (m : Message)
    (parts : List MPart) (terminal : Option GErr) (mediaType boundary : String) :
    (parseMultipart r m parts terminal mediaType boundary).1.n = r.n := by
  rw [parseMultipart.eq_def]
  split
  · split
    · rfl
    · rfl
  · dsimp only
    split
    · exact parsePart_n ..
    · rename_i p rest h
      exact (parseMultipart_n (parsePart r m p mediaType).1
        (parsePart r m p mediaType).2 rest terminal mediaType boundary).trans
        (parsePart_n r m p mediaType)
termination_by sizeOf parts

end

theorem readMessage_n_zero (input : WireInput) (m0 : Message) :
    (readMessage input m0).1.n = 0 := by
  rw [readMessage.eq_def]
  split
  · rfl
  · split
    · rfl
    · split
      all_goals split
      all_goals first
        | exact (parseMultipart_n _ _ _ _ _ _).trans rfl
        | rfl

/-- C1: `ReadFrom` is declared to implement `io.ReaderFrom`, whose first
result is the number of bytes consumed — but `messageReader.n` is never
assigned anywhere in the source, so the returned count is always `0`,
whatever was actually consumed from the stream. -/
theorem readFrom_byte_count_always_zero (m : Message) (input : WireInput) :
    (Message.ReadFrom m input).2.1 = 0 := by
  unfold Message.ReadFrom
  exact readMessage_n_zero input m

/-- C2: the body decoder dispatches on the transfer-encoding label:
`"base64"` is decoded as standard base64 (corruption surfaces as a decode
error from `decodeBase64`), the absent/unencoded/quoted-printable labels
pass the source bytes through unchanged, and every other label fails with
`UnknownEncoding` naming the label. -/
theorem readPartBody_encoding_policy (src : List Nat) (enc : String) :
    (enc = "base64" → readPartBody src enc = decodeBase64 src) ∧
    ((enc = "" ∨ enc = "7bit" ∨ enc = "8bit" ∨ enc = "binary" ∨
        enc = "quoted-printable") → readPartBody src enc = .ok src) ∧
    ((enc ≠ "base64" ∧ enc ≠ "" ∧ enc ≠ "7bit" ∧ enc ≠ "8bit" ∧
        enc ≠ "binary" ∧ enc ≠ "quoted-printable") →
      readPartBody src enc = .error (.unknownEncoding enc)) := by
  refine ⟨?_, ?_, ?_⟩
  · intro h
    subst h
    simp [readPartBody, Base64]
  · intro h
    rcases h with h | h | h | h | h <;> subst h <;>
      simp [readPartBody, Base64, QuotedPrintable, isUnencoded]
  · intro h
    obtain ⟨h1, h2, h3, h4, h5, h6⟩ := h
    simp [readPartBody, Base64, QuotedPrintable, isUnencoded, h1, h2, h3, h4, h5, h6]

/-- Concrete instances of the decoder policy: a base64 body is decoded, an
unencoded body passes through, and the label "uuencode" is rejected. -/
theorem readPartBody_encoding_policy_witness :
    readPartBody [97, 71, 107, 61] "base64" = .ok [104, 105] ∧
    readPartBody [104, 105] "7bit" = .ok [104, 105] ∧
    readPartBody [104, 105] "uuencode" = .error (.unknownEncoding "uuencode") := by
  refine ⟨?_, ?_, ?_⟩
  · rw [(readPartBody_encoding_policy [97, 71, 107, 61] "base64").1 rfl]
    rfl
  · exact (readPartBody_encoding_policy [104, 105] "7bit").2.1 (by simp)
  · exact (readPartBody_encoding_policy [104, 105] "uuencode").2.2 (by decide)

/-! ### One-step characterisation of `parsePart` on a file-classified leaf -/

/-- On a leaf part under a parent that is not `multipart/alternative`, with
all collaborator parses given, `parsePart` resolves the filename with
disposition precedence, fails hard on a blank name, and otherwise files
the part by disposition value. -/
theorem parsePart_file_leaf (r : messageReader) (m : Message) (p : MPart)
    (parent mt : String) (params : List (String × String))
    (cd : String) (dparams : List (String × String)) (body : List Nat)
    (hct : parseMediaType (headerGet p.header "Content-Type") = .ok (mt, params))
    (hmp : hasPrefix mt "multipart/" = false)
    (halt : parent ≠ "multipart/alternative")
    (hbody : readPartBody p.bytes (headerGet p.header "Content-Transfer-Encoding") = .ok body)
    (hcd : parseMediaType (headerGet p.header "Content-Disposition") = .ok (cd, dparams)) :
    parsePart r m p parent =
      (let filename := (dparams.lookup "filename").getD ((params.lookup "name").getD "")
       if trimSpace filename = "" then
         ({ r with err := some .blankFilename }, m)
       else if cd = "inline" then
         (r, { m with embedded :=
           m.embedded ++ [{ name := filename, header := p.header, content := body }] })
       else
         (r, { m with attachments :=
           m.attachments ++ [{ name := filename, header := p.header, content := body }] })) := by
  rw [parsePart.eq_def, hct]
  dsimp only
  rw [hmp]
  simp only [Bool.false_eq_true, if_false, hbody, hcd, if_neg halt]
  dsimp only [appendFile, fileFromReader, List.foldl, applyFileSetting]
  cases dparams.lookup "filename" <;> rfl

/-! ### Claim C3: absent Content-Disposition -/

/-- The concrete message behind the C3 counterexample: a multipart/mixed
envelope holding one leaf with a Content-Type `name` parameter and no
Content-Disposition header at all. -/
def noDispositionInput : WireInput :=
  .msg [("Content-Type", ["multipart/mixed; boundary=x"])]
    (.multi [.leaf [("Content-Type", ["text/plain; name=a.txt"])] [104, 105]] none)

/-- C3 counterexample: on a file-classified leaf with a non-blank
Content-Type `name` parameter and no Content-Disposition header, the
parse does NOT succeed and nothing is appended to Attachments: it aborts,
because `Get("Content-Disposition")` yields `""` and
`mime.ParseMediaType("")` fails. -/
theorem absent_disposition_not_filed_cex :
    (Message.ReadFrom {} noDispositionInput).2.2 = some (.invalidMediaType "") ∧
    (Message.ReadFrom {} noDispositionInput).1.attachments = [] ∧
    (Message.ReadFrom {} noDispositionInput).1.embedded = [] := by
  have e1 : parsePart {} {}
      (.leaf [("Content-Type", ["text/plain; name=a.txt"])] [104, 105]) "multipart/mixed"
      = ({ err := some (.invalidMediaType "") }, {}) := by
    rw [parsePart.eq_def]; rfl
  have e2 : parseMultipart {} {}
      [.leaf [("Content-Type", ["text/plain; name=a.txt"])] [104, 105]] none
      "multipart/mixed" "x"
      = ({ err := some (.invalidMediaType "") }, {}) := by
    rw [parseMultipart.eq_def]
    dsimp only
    rw [e1]
    rfl
  have estep : readMessage noDispositionInput {} =
      parseMultipart {} {}
        [.leaf [("Content-Type", ["text/plain; name=a.txt"])] [104, 105]] none
        "multipart/mixed" "x" := by
    rw [readMessage.eq_def]; rfl
  have e3 : Message.ReadFrom {} noDispositionInput =
      ({}, 0, some (.invalidMediaType "")) := by
    unfold Message.ReadFrom
    rw [estep, e2]
  rw [e3]
  exact ⟨rfl, rfl, rfl⟩

/-- C3 amended: a file-classified leaf part with no Content-Disposition
header makes the parse fail with the media-type parse error on the empty
string (an InvalidDisposition failure), and the part is filed into
neither collection. -/
theorem absent_disposition_aborts (r : messageReader) (m : Message) (p : MPart)
    (parent mt : String) (params : List (String × String))
    (hct : parseMediaType (headerGet p.header "Content-Type") = .ok (mt, params))
    (hmp : hasPrefix mt "multipart/" = false)
    (halt : parent ≠ "multipart/alternative")
    (hbody : (readPartBody p.bytes (headerGet p.header "Content-Transfer-Encoding")).isOk)
    (hnodis : headerGet p.header "Content-Disposition" = "") :
    parsePart r m p parent = ({ r with err := some (.invalidMediaType "") }, m) := by
  rw [parsePart.eq_def, hct]
  dsimp only
  rw [hmp]
  simp only [Bool.false_eq_true, if_false]
  obtain ⟨body, hb⟩ : ∃ body,
      readPartBody p.bytes (headerGet p.header "Content-Transfer-Encoding") = .ok body := by
    revert hbody
    cases readPartBody p.bytes (headerGet p.header "Content-Transfer-Encoding") with
    | error e => intro h; cases h
    | ok b => exact fun _ => ⟨b, rfl⟩
  rw [hb]
  simp only [if_neg halt]
  rw [hnodis]
  rfl

/-- Closed instance of `absent_disposition_aborts` at the counterexample's
leaf part. -/
theorem absent_disposition_aborts_witness :
    parsePart {} {} (.leaf [("Content-Type", ["text/plain; name=a.txt"])] [104, 105])
      "multipart/mixed" = ({ err := some (.invalidMediaType "") }, {}) := by
  exact absent_disposition_aborts {} {}
    (.leaf [("Content-Type", ["text/plain; name=a.txt"])] [104, 105])
    "multipart/mixed" "text/plain" [("name", "a.txt")] rfl rfl (by decide)
    (by rw [(rfl : readPartBody
        (MPart.leaf [("Content-Type", ["text/plain; name=a.txt"])] [104, 105]).bytes
        (headerGet (MPart.leaf [("Content-Type", ["text/plain; name=a.txt"])] [104, 105]).header
          "Content-Transfer-Encoding") = .ok [104, 105])]; rfl)
    rfl

/-- C6: on a successfully parsed file-classified leaf, a Content-Disposition
`filename` parameter wins over the Content-Type `name` parameter; when no
`filename` parameter is present the `name` parameter is used. -/
theorem filename_disposition_precedence (r : messageReader) (m : Message)
    (p : MPart) (parent mt : String) (params : List (String × String))
    (cd : String) (dparams : List (String × String)) (body : List Nat)
    (hct : parseMediaType (headerGet p.header "Content-Type") = .ok (mt, params))
    (hmp : hasPrefix mt "multipart/" = false)
    (halt : parent ≠ "multipart/alternative")
    (hbody : readPartBody p.bytes (headerGet p.header "Content-Transfer-Encoding") = .ok body)
    (hcd : parseMediaType (headerGet p.header "Content-Disposition") = .ok (cd, dparams)) :
    (∀ f, dparams.lookup "filename" = some f → trimSpace f ≠ "" →
      parsePart r m p parent =
        (if cd = "inline" then
          (r, { m with embedded :=
            m.embedded ++ [{ name := f, header := p.header, content := body }] })
        else
          (r, { m with attachments :=
            m.attachments ++ [{ name := f, header := p.header, content := body }] }))) ∧
    (∀ nm, dparams.lookup "filename" = none → params.lookup "name" = some nm →
      trimSpace nm ≠ "" →
      parsePart r m p parent =
        (if cd = "inline" then
          (r, { m with embedded :=
            m.embedded ++ [{ name := nm, header := p.header, content := body }] })
        else
          (r, { m with attachments :=
            m.attachments ++ [{ name := nm, header := p.header, content := body }] }))) := by
  rw [parsePart_file_leaf r m p parent mt params cd dparams body hct hmp halt hbody hcd]
  constructor
  · intro f hf hnb
    rw [hf]
    dsimp only [Option.getD]
    rw [if_neg hnb]
  · intro nm hf hnm hnb
    rw [hf, hnm]
    dsimp only [Option.getD]
    rw [if_neg hnb]

/-- Concrete instances of the filename precedence: disposition filename wins
over the Content-Type name; with no filename parameter the name is used. -/
theorem filename_disposition_precedence_witness :
    parsePart {} {}
      (.leaf [("Content-Type", ["image/png; name=ignored.png"]),
              ("Content-Disposition", ["attachment; filename=real.png"])] [7])
      "multipart/mixed" =
      ({}, { attachments := [⟨"real.png",
        [("Content-Type", ["image/png; name=ignored.png"]),
         ("Content-Disposition", ["attachment; filename=real.png"])], [7]⟩] }) ∧
    parsePart {} {}
      (.leaf [("Content-Type", ["image/png; name=fromtype.png"]),
              ("Content-Disposition", ["attachment"])] [8])
      "multipart/mixed" =
      ({}, { attachments := [⟨"fromtype.png",
        [("Content-Type", ["image/png; name=fromtype.png"]),
         ("Content-Disposition", ["attachment"])], [8]⟩] }) := by
  constructor
  · exact (filename_disposition_precedence {} {}
      (.leaf [("Content-Type", ["image/png; name=ignored.png"]),
              ("Content-Disposition", ["attachment; filename=real.png"])] [7])
      "multipart/mixed" "image/png" [("name", "ignored.png")]
      "attachment" [("filename", "real.png")] [7]
      rfl rfl (by decide) rfl rfl).1 "real.png" rfl (by decide)
  · exact (filename_disposition_precedence {} {}
      (.leaf [("Content-Type", ["image/png; name=fromtype.png"]),
              ("Content-Disposition", ["attachment"])] [8])
      "multipart/mixed" "image/png" [("name", "fromtype.png")]
      "attachment" [] [8]
      rfl rfl (by decide) rfl rfl).2 "fromtype.png" rfl rfl (by decide)

/-- C7: a file-classified leaf whose resolved filename is empty or
whitespace-only after trimming makes the parse fail with the
`BlankFilename` error, and the message — in particular both file
collections — is left untouched. -/
theorem blank_filename_hard_failure (r : messageReader) (m : Message)
    (p : MPart) (parent mt : String) (params : List (String × String))
    (cd : String) (dparams : List (String × String)) (body : List Nat)
    (hct : parseMediaType (headerGet p.header "Content-Type") = .ok (mt, params))
    (hmp : hasPrefix mt "multipart/" = false)
    (halt : parent ≠ "multipart/alternative")
    (hbody : readPartBody p.bytes (headerGet p.header "Content-Transfer-Encoding") = .ok body)
    (hcd : parseMediaType (headerGet p.header "Content-Disposition") = .ok (cd, dparams))
    (hblank : trimSpace ((dparams.lookup "filename").getD
      ((params.lookup "name").getD "")) = "") :
    parsePart r m p parent = ({ r with err := some .blankFilename }, m) := by
  rw [parsePart_file_leaf r m p parent mt params cd dparams body hct hmp halt hbody hcd]
  dsimp only
  rw [if_pos hblank]

/-- Closed instance of the blank-filename failure: a leaf with neither a
`name` nor a `filename` parameter fails with `BlankFilename` and files
nothing. -/
theorem blank_filename_hard_failure_witness :
    parsePart {} {}
      (.leaf [("Content-Type", ["text/plain"]),
              ("Content-Disposition", ["attachment"])] [9])
      "multipart/mixed" = ({ err := some .blankFilename }, {}) := by
  exact blank_filename_hard_failure {} {}
    (.leaf [("Content-Type", ["text/plain"]),
            ("Content-Disposition", ["attachment"])] [9])
    "multipart/mixed" "text/plain" [] "attachment" [] [9]
    rfl rfl (by decide) rfl rfl rfl

/-- C8: a successfully parsed file-classified leaf is appended at the end of
EmbeddedFiles exactly when the parsed Content-Disposition value is
`"inline"`, and at the end of Attachments for every other disposition
value; the other collection is untouched, so each collection grows in
stream order. -/
theorem disposition_filing (r : messageReader) (m : Message)
    (p : MPart) (parent mt : String) (params : List (String × String))
    (cd : String) (dparams : List (String × String)) (body : List Nat)
    (filename : String)
    (hct : parseMediaType (headerGet p.header "Content-Type") = .ok (mt, params))
    (hmp : hasPrefix mt "multipart/" = false)
    (halt : parent ≠ "multipart/alternative")
    (hbody : readPartBody p.bytes (headerGet p.header "Content-Transfer-Encoding") = .ok body)
    (hcd : parseMediaType (headerGet p.header "Content-Disposition") = .ok (cd, dparams))
    (hfn : (dparams.lookup "filename").getD ((params.lookup "name").getD "") = filename)
    (hnb : trimSpace filename ≠ "") :
    (cd = "inline" →
      parsePart r m p parent =
        (r, { m with embedded :=
          m.embedded ++ [{ name := filename, header := p.header, content := body }] })) ∧
    (cd ≠ "inline" →
      parsePart r m p parent =
        (r, { m with attachments :=
          m.attachments ++ [{ name := filename, header := p.header, content := body }] })) := by
  rw [parsePart_file_leaf r m p parent mt params cd dparams body hct hmp halt hbody hcd]
  dsimp only
  rw [hfn, if_neg hnb]
  constructor
  · intro hin
    rw [if_pos hin]
  · intro hout
    rw [if_neg hout]

/-- Concrete instances of the disposition filing: an inline image goes to
EmbeddedFiles, an attachment pdf goes to Attachments. -/
theorem disposition_filing_witness :
    parsePart {} {}
      (.leaf [("Content-Type", ["image/png"]),
              ("Content-Disposition", ["inline; filename=x.png"])] [1, 2])
      "multipart/mixed" =
      ({}, { embedded := [⟨"x.png",
        [("Content-Type", ["image/png"]),
         ("Content-Disposition", ["inline; filename=x.png"])], [1, 2]⟩] }) ∧
    parsePart {} {}
      (.leaf [("Content-Type", ["application/pdf"]),
              ("Content-Disposition", ["attachment; filename=y.pdf"])] [3])
      "multipart/mixed" =
      ({}, { attachments := [⟨"y.pdf",
        [("Content-Type", ["application/pdf"]),
         ("Content-Disposition", ["attachment; filename=y.pdf"])], [3]⟩] }) := by
  constructor
  · exact (disposition_filing {} {}
      (.leaf [("Content-Type", ["image/png"]),
              ("Content-Disposition", ["inline; filename=x.png"])] [1, 2])
      "multipart/mixed" "image/png" []
      "inline" [("filename", "x.png")] [1, 2] "x.png"
      rfl rfl (by decide) rfl rfl rfl (by decide)).1 rfl
  · exact (disposition_filing {} {}
      (.leaf [("Content-Type", ["application/pdf"]),
              ("Content-Disposition", ["attachment; filename=y.pdf"])] [3])
      "multipart/mixed" "application/pdf" []
      "attachment" [("filename", "y.pdf")] [3] "y.pdf"
      rfl rfl (by decide) rfl rfl rfl (by decide)).2 (by decide)

/-! ### Further header lemmas and `readMessage` unfolding lemmas -/

theorem lookup_headerSet_cases (h : Header) (k k' : String) (v vs : List String)
    (hl : (headerSet h k v).lookup k' = some vs) :
    (k' = k ∧ vs = v) ∨ h.lookup k' = some vs := by
  by_cases hk : k' = k
  · subst hk
    rw [lookup_headerSet_self] at hl
    exact Or.inl ⟨rfl, (Option.some.inj hl).symm⟩
  · rw [lookup_headerSet_ne h k k' v hk] at hl
    exact Or.inr hl

/-- Every binding of `CopyOnlyHeaders h list` is a binding of `h` at a key
of `list`. -/
theorem CopyOnlyHeaders_subset (h : Header) (list : List String)
    (k : String) (vs : List String)
    (hl : (CopyOnlyHeaders h list).lookup k = some vs) :
    k ∈ list ∧ h.lookup k = some vs := by
  unfold CopyOnlyHeaders at hl
  have main : ∀ (l : List String) (acc : Header),
      (l.foldl (fun newh hn =>
        match h.lookup hn with
        | some hv => headerSet newh hn hv
        | none => newh) acc).lookup k = some vs →
      (k ∈ l ∧ h.lookup k = some vs) ∨ acc.lookup k = some vs := by
    intro l
    induction l with
    | nil => intro acc hacc; exact Or.inr hacc
    | cons hn rest ih =>
      intro acc hacc
      rcases ih _ hacc with ⟨hmem, hh⟩ | hrec
      · exact Or.inl ⟨List.mem_cons_of_mem _ hmem, hh⟩
      · dsimp only at hrec
        rcases hhn : h.lookup hn with _ | hv
        · rw [hhn] at hrec
          exact Or.inr hrec
        · rw [hhn] at hrec
          rcases lookup_headerSet_cases acc hn k hv vs hrec with ⟨hk, hvs⟩ | hold
          · subst hk
            exact Or.inl ⟨List.mem_cons_self _ _, hvs ▸ hhn⟩
          · exact Or.inr hold
  rcases main list [] hl with hgood | hbad
  · exact hgood
  · simp at hbad

/-- Unfolding of `readMessage` when `mail.ReadMessage` fails: the error is
recorded and the message is left at its reset defaults. -/
theorem readMessage_malformed (e : GErr) (m0 : Message) :
    readMessage (.malformed e) m0 = ({ err := some e }, {}) := by
  rw [readMessage.eq_def]
  rfl

/-- Unfolding of `readMessage` when the top-level Content-Type fails to
parse: headers are already copied, nothing else happens. -/
theorem readMessage_ctError (hdr : Header) (body : BodyStream) (m0 : Message)
    (e : GErr)
    (hct : parseMediaType (headerGet hdr "Content-Type") = .error e) :
    readMessage (.msg hdr body) m0 =
      ({ err := some e }, { header := copyHeadersSkipReserved hdr }) := by
  rw [readMessage.eq_def]
  dsimp only
  rw [hct]
  rfl

/-- Unfolding of `readMessage` on a non-multipart envelope: exactly one part
holding the restricted header subset, the verbatim body and the explicit
encoding when a Content-Transfer-Encoding field is present. -/
theorem readMessage_single (hdr : Header) (body : BodyStream) (m0 : Message)
    (mt : String) (params : List (String × String))
    (hct : parseMediaType (headerGet hdr "Content-Type") = .ok (mt, params))
    (hmp : hasPrefix mt "multipart/" = false) :
    readMessage (.msg hdr body) m0 =
      ({}, { header := copyHeadersSkipReserved hdr,
             charset := (params.lookup "charset").getD "UTF-8",
             parts := [{ contentType := mt, content := body.leafBytes,
                         header := CopyOnlyHeaders hdr
                           ["Content-Type", "Content-Transfer-Encoding"],
                         encoding :=
                           if headerGet hdr "Content-Transfer-Encoding" = "" then none
                           else some (headerGet hdr "Content-Transfer-Encoding") }] }) := by
  rw [readMessage.eq_def]
  dsimp only
  rw [hct]
  dsimp only
  rw [hmp]
  simp only [Bool.false_eq_true, if_false]
  cases hch : params.lookup "charset" <;>
    by_cases hpe : headerGet hdr "Content-Transfer-Encoding" = "" <;>
      simp [hpe, newPart, applyPartSetting, Option.getD, Message.Reset]

/-- Unfolding of `readMessage` on a multipart envelope: delegate to the
walker over the body's multipart view, with headers copied and charset
recorded first. -/
theorem readMessage_multi (hdr : Header) (body : BodyStream) (m0 : Message)
    (mt : String) (params : List (String × String))
    (hct : parseMediaType (headerGet hdr "Content-Type") = .ok (mt, params))
    (hmp : hasPrefix mt "multipart/" = true) :
    readMessage (.msg hdr body) m0 =
      parseMultipart {}
        { header := copyHeadersSkipReserved hdr,
          charset := (params.lookup "charset").getD "UTF-8" }
        body.asMulti.1 body.asMulti.2 mt ((params.lookup "boundary").getD "") := by
  rw [readMessage.eq_def]
  dsimp only
  rw [hct]
  dsimp only
  rw [hmp]
  simp only [if_true]
  cases hch : params.lookup "charset" <;> rfl

/-- Whatever branch `readMessage` takes on an envelope, the message's header
mapping is exactly the reserved-key-filtered copy of the envelope header. -/
theorem readMessage_header_eq (hdr : Header) (body : BodyStream) (m0 : Message) :
    (readMessage (.msg hdr body) m0).2.header = copyHeadersSkipReserved hdr := by
  cases hct : parseMediaType (headerGet hdr "Content-Type") with
  | error e => rw [readMessage_ctError hdr body m0 e hct]
  | ok mp =>
    obtain ⟨mt, params⟩ := mp
    by_cases hmp : hasPrefix mt "multipart/"
    · rw [readMessage_multi hdr body m0 mt params hct hmp]
      exact (parseMultipart_frame ..).1
    · rw [readMessage_single hdr body m0 mt params hct (by simpa using hmp)]

/-- C4: after every parse call the header mapping contains no key whose
canonical form is `Content-Type` or `Mime-Version`, while every other
envelope field is present with its full value sequence. -/
theorem header_mapping_invariant (input : WireInput) (m0 : Message) :
    (∀ k, (canonicalMIMEHeaderKey k = "Content-Type" ∨
        canonicalMIMEHeaderKey k = "Mime-Version") →
      ((Message.ReadFrom m0 input).1.header).lookup k = none) ∧
    (∀ hdr body, input = .msg hdr body → (hdr.map Prod.fst).Nodup →
      ∀ k vs, ¬ (canonicalMIMEHeaderKey k = "Content-Type" ∨
        canonicalMIMEHeaderKey k = "Mime-Version") →
      hdr.lookup k = some vs →
      ((Message.ReadFrom m0 input).1.header).lookup k = some vs) := by
  cases input with
  | malformed e =>
    have hm : (Message.ReadFrom m0 (.malformed e)).1 = ({} : Message) := by
      unfold Message.ReadFrom
      rw [readMessage_malformed]
    constructor
    · intro k _
      rw [hm]
      rfl
    · intro hdr body h
      cases h
  | msg hdr body =>
    have hh : (Message.ReadFrom m0 (.msg hdr body)).1.header =
        copyHeadersSkipReserved hdr := by
      unfold Message.ReadFrom
      exact readMessage_header_eq hdr body m0
    constructor
    · intro k hres
      rw [hh]
      exact copyHeadersSkipReserved_reserved_absent hdr k hres
    · intro hdr' body' heq hnd k vs hres hget
      obtain ⟨rfl, rfl⟩ : hdr = hdr' ∧ body = body' := by
        cases heq
        exact ⟨rfl, rfl⟩
      rw [hh]
      exact copyHeadersSkipReserved_copies hdr k vs hnd hres hget

/-- Closed instance of the header invariant: `Content-Type` (in any casing)
is dropped, `Subject` is kept with its value sequence. -/
theorem header_mapping_invariant_witness :
    ((Message.ReadFrom {} (.msg [("Subject", ["hi", "lo"]), ("Content-Type", ["text/plain"])]
      (.bytes [1]))).1.header).lookup "Content-Type" = none ∧
    ((Message.ReadFrom {} (.msg [("Subject", ["hi", "lo"]), ("Content-Type", ["text/plain"])]
      (.bytes [1]))).1.header).lookup "Subject" = some ["hi", "lo"] := by
  constructor
  · exact (header_mapping_invariant
      (.msg [("Subject", ["hi", "lo"]), ("Content-Type", ["text/plain"])] (.bytes [1])) {}).1
      "Content-Type" (by decide)
  · exact (header_mapping_invariant
      (.msg [("Subject", ["hi", "lo"]), ("Content-Type", ["text/plain"])] (.bytes [1])) {}).2
      _ _ rfl (by decide) "Subject" ["hi", "lo"] (by decide) rfl

/-- C5: a non-multipart envelope yields no error, exactly one part — whose
header subset is `CopyOnlyHeaders` of Content-Type and
Content-Transfer-Encoding (and hence holds nothing but those fields),
whose explicit encoding is set exactly when a Content-Transfer-Encoding
field is present, and whose content is the body verbatim — and empty
Attachments and EmbeddedFiles. -/
theorem single_part_message_shape (hdr : Header) (body : BodyStream)
    (m0 : Message) (mt : String) (params : List (String × String))
    (hct : parseMediaType (headerGet hdr "Content-Type") = .ok (mt, params))
    (hmp : hasPrefix mt "multipart/" = false) :
    (readMessage (.msg hdr body) m0).1.err = none ∧
    (readMessage (.msg hdr body) m0).2.parts =
      [{ contentType := mt, content := body.leafBytes,
         header := CopyOnlyHeaders hdr ["Content-Type", "Content-Transfer-Encoding"],
         encoding :=
           if headerGet hdr "Content-Transfer-Encoding" = "" then none
           else some (headerGet hdr "Content-Transfer-Encoding") }] ∧
    (readMessage (.msg hdr body) m0).2.attachments = [] ∧
    (readMessage (.msg hdr body) m0).2.embedded = [] ∧
    (∀ k vs,
      (CopyOnlyHeaders hdr ["Content-Type", "Content-Transfer-Encoding"]).lookup k
        = some vs →
      (k = "Content-Type" ∨ k = "Content-Transfer-Encoding") ∧
        hdr.lookup k = some vs) := by
  rw [readMessage_single hdr body m0 mt params hct hmp]
  refine ⟨rfl, rfl, rfl, rfl, ?_⟩
  intro k vs hl
  obtain ⟨hmem, hval⟩ := CopyOnlyHeaders_subset hdr _ k vs hl
  refine ⟨?_, hval⟩
  simpa using hmem

/-- Closed instance of the single-part shape on a message with a
Content-Transfer-Encoding field and one extra header. -/
theorem single_part_message_shape_witness :
    (readMessage (.msg [("Content-Type", ["text/plain"]),
        ("Content-Transfer-Encoding", ["base64"]), ("Subject", ["s"])]
      (.bytes [5, 6])) {}).1.err = none ∧
    (readMessage (.msg [("Content-Type", ["text/plain"]),
        ("Content-Transfer-Encoding", ["base64"]), ("Subject", ["s"])]
      (.bytes [5, 6])) {}).2.parts =
      [{ contentType := "text/plain", content := [5, 6],
         header := [("Content-Type", ["text/plain"]),
                    ("Content-Transfer-Encoding", ["base64"])],
         encoding := some "base64" }] ∧
    (readMessage (.msg [("Content-Type", ["text/plain"]),
        ("Content-Transfer-Encoding", ["base64"]), ("Subject", ["s"])]
      (.bytes [5, 6])) {}).2.attachments = [] ∧
    (readMessage (.msg [("Content-Type", ["text/plain"]),
        ("Content-Transfer-Encoding", ["base64"]), ("Subject", ["s"])]
      (.bytes [5, 6])) {}).2.embedded = [] := by
  obtain ⟨h1, h2, h3, h4, _⟩ := single_part_message_shape
    [("Content-Type", ["text/plain"]), ("Content-Transfer-Encoding", ["base64"]),
     ("Subject", ["s"])]
    (.bytes [5, 6]) {} "text/plain" [] rfl rfl
  exact ⟨h1, by rw [h2]; rfl, h3, h4⟩

/-- C10: the message's charset is `"UTF-8"` unless the top-level
Content-Type parses and carries a `charset` parameter, in which case it
is that parameter's value — in particular it never depends on the body,
so no nested part's `charset` parameter can change it. -/
theorem charset_from_top_level_only (input : WireInput) (m0 : Message) :
    (Message.ReadFrom m0 input).1.charset =
      (match input with
       | .malformed _ => "UTF-8"
       | .msg hdr _ =>
         match parseMediaType (headerGet hdr "Content-Type") with
         | .error _ => "UTF-8"
         | .ok (_, params) => (params.lookup "charset").getD "UTF-8") := by
  cases input with
  | malformed e =>
    unfold Message.ReadFrom
    rw [readMessage_malformed]
  | msg hdr body =>
    unfold Message.ReadFrom
    dsimp only
    cases hct : parseMediaType (headerGet hdr "Content-Type") with
    | error e => rw [readMessage_ctError hdr body m0 e hct]
    | ok mp =>
      obtain ⟨mt, params⟩ := mp
      by_cases hmp : hasPrefix mt "multipart/"
      · rw [readMessage_multi hdr body m0 mt params hct hmp]
        exact (parseMultipart_frame ..).2.1
      · rw [readMessage_single hdr body m0 mt params hct (by simpa using hmp)]

/-! ### Claim C9: fail-fast error propagation through the walker -/

theorem messageReader_err_none_eta (r : messageReader) (h : r.err = none) :
    ({ r with err := none } : messageReader) = r := by
  cases r
  simp_all

theorem parseMultipart_nil (r : messageReader) (m : Message)
    (t : Option GErr) (mt b : String) :
    parseMultipart r m [] t mt b =
      (match t with
       | none => ({ r with err := none }, m)
       | some e => ({ r with err := some e }, m)) := by
  rw [parseMultipart.eq_def]

theorem parseMultipart_cons (r : messageReader) (m : Message) (p : MPart)
    (rest : List MPart) (t : Option GErr) (mt b : String) :
    parseMultipart r m (p :: rest) t mt b =
      (let res := parsePart r m p mt
       if res.1.err.isSome then res
       else parseMultipart res.1 res.2 rest t mt b) := by
  rw [parseMultipart.eq_def]

/-- C9: with an error-free prefix, the first failing part aborts the walk —
the result is exactly that part's outcome, the failing error is the
walker's error, later siblings are never processed, and whatever the
prefix filed stays in the Message; a terminal reader error surfaces as
the error after an otherwise clean walk; and `ReadFrom` hands the
reader's error to the caller unchanged. -/
theorem fail_fast_first_error (pre post : List MPart) (p : MPart)
    (r : messageReader) (m : Message) (t : Option GErr) (mt b : String)
    (e : GErr) (hr : r.err = none)
    (hpre : (parseMultipart r m pre none mt b).1.err = none) :
    ((parsePart (parseMultipart r m pre none mt b).1
        (parseMultipart r m pre none mt b).2 p mt).1.err = some e →
      parseMultipart r m (pre ++ p :: post) t mt b =
        parsePart (parseMultipart r m pre none mt b).1
          (parseMultipart r m pre none mt b).2 p mt) ∧
    (parseMultipart r m pre (some e) mt b =
      ({ (parseMultipart r m pre none mt b).1 with err := some e },
       (parseMultipart r m pre none mt b).2)) ∧
    (∀ (input : WireInput) (m1 : Message),
      (Message.ReadFrom m1 input).2.2 = (readMessage input m1).1.err) := by
  refine ⟨?_, ?_, fun _ _ => rfl⟩
  · induction pre generalizing r m with
    | nil =>
      intro hp
      have hbase : parseMultipart r m [] none mt b = (r, m) := by
        rw [parseMultipart_nil]
        dsimp only
        rw [messageReader_err_none_eta r hr]
      rw [hbase] at hp ⊢
      simp only [List.nil_append]
      rw [parseMultipart_cons]
      dsimp only
      simp [hp]
    | cons q pre' ih =>
      intro hp
      cases hqe : (parsePart r m q mt).1.err with
      | some e' =>
        exfalso
        rw [parseMultipart_cons] at hpre
        simp [hqe] at hpre
      | none =>
        have hstep : ∀ (ps : List MPart) (t' : Option GErr),
            parseMultipart r m (q :: ps) t' mt b =
              parseMultipart (parsePart r m q mt).1 (parsePart r m q mt).2
                ps t' mt b := by
          intro ps t'
          rw [parseMultipart_cons]
          dsimp only
          simp [hqe]
        rw [hstep] at hpre
        rw [hstep] at hp
        rw [List.cons_append, hstep, hstep]
        exact ih (parsePart r m q mt).1 (parsePart r m q mt).2 hqe hpre hp
  · induction pre generalizing r m with
    | nil =>
      rw [parseMultipart_nil, parseMultipart_nil]
    | cons q pre' ih =>
      cases hqe : (parsePart r m q mt).1.err with
      | some e' =>
        exfalso
        rw [parseMultipart_cons] at hpre
        simp [hqe] at hpre
      | none =>
        have hstep : ∀ (ps : List MPart) (t' : Option GErr),
            parseMultipart r m (q :: ps) t' mt b =
              parseMultipart (parsePart r m q mt).1 (parsePart r m q mt).2
                ps t' mt b := by
          intro ps t'
          rw [parseMultipart_cons]
          dsimp only
          simp [hqe]
        rw [hstep] at hpre
        rw [hstep, hstep]
        exact ih (parsePart r m q mt).1 (parsePart r m q mt).2 hqe hpre

/-- Closed instance of the fail-fast behaviour: in a three-part multipart
whose second part fails with `BlankFilename`, the walk stops there, the
third part is never filed, and the inline file filed by the first part
remains. -/
theorem fail_fast_first_error_witness :
    parseMultipart {} {}
      [.leaf [("Content-Type", ["image/png"]),
              ("Content-Disposition", ["inline; filename=x.png"])] [1],
       .leaf [("Content-Type", ["text/plain"]),
              ("Content-Disposition", ["attachment"])] [2],
       .leaf [("Content-Type", ["text/plain"]),
              ("Content-Disposition", ["attachment; filename=z.txt"])] [3]]
      none "multipart/mixed" "b" =
      ({ err := some .blankFilename },
       { embedded := [⟨"x.png",
         [("Content-Type", ["image/png"]),
          ("Content-Disposition", ["inline; filename=x.png"])], [1]⟩] }) := by
  have s1 : parsePart {} {}
      (.leaf [("Content-Type", ["image/png"]),
              ("Content-Disposition", ["inline; filename=x.png"])] [1])
      "multipart/mixed" =
      ({}, { embedded := [⟨"x.png",
        [("Content-Type", ["image/png"]),
         ("Content-Disposition", ["inline; filename=x.png"])], [1]⟩] }) := by
    rw [parsePart.eq_def]
    rfl
  have s2 : parseMultipart {} {}
      [.leaf [("Content-Type", ["image/png"]),
              ("Content-Disposition", ["inline; filename=x.png"])] [1]]
      none "multipart/mixed" "b" =
      ({}, { embedded := [⟨"x.png",
        [("Content-Type", ["image/png"]),
         ("Content-Disposition", ["inline; filename=x.png"])], [1]⟩] }) := by
    rw [parseMultipart_cons]
    dsimp only
    rw [s1]
    simp only [Option.isSome_none, Bool.false_eq_true, if_false]
    rw [parseMultipart_nil]
  have s3 : parsePart {}
      ({ embedded := [⟨"x.png",
        [("Content-Type", ["image/png"]),
         ("Content-Disposition", ["inline; filename=x.png"])], [1]⟩] } : Message)
      (.leaf [("Content-Type", ["text/plain"]),
              ("Content-Disposition", ["attachment"])] [2])
      "multipart/mixed" =
      ({ err := some .blankFilename },
       { embedded := [⟨"x.png",
         [("Content-Type", ["image/png"]),
          ("Content-Disposition", ["inline; filename=x.png"])], [1]⟩] }) := by
    rw [parsePart.eq_def]
    rfl
  have w := (fail_fast_first_error
    [.leaf [("Content-Type", ["image/png"]),
            ("Content-Disposition", ["inline; filename=x.png"])] [1]]
    [.leaf [("Content-Type", ["text/plain"]),
            ("Content-Disposition", ["attachment; filename=z.txt"])] [3]]
    (.leaf [("Content-Type", ["text/plain"]),
            ("Content-Disposition", ["attachment"])] [2])
    {} {} none "multipart/mixed" "b" .blankFilename rfl
    (by rw [s2])).1 (by rw [s2]; dsimp only; rw [s3])
  refine w.trans ?_
  rw [s2]
  dsimp only
  rw [s3]

end Gomail
